import Mathlib

/-!
Shallow embedding of the exchange-rate subsystem of the currency-converter
backend (`src/exchange-rates/exchange-rates.service.ts` and the Prisma data
model), together with proofs of the specification's claims about it.

Modelling conventions:
* monetary amounts and rates are exact rationals (`ℚ`);
* timestamps (both `Date` values and ISO strings) are epoch milliseconds (`ℤ`);
* a JavaScript object `{k: v, ...}` is an association list with unique keys,
  read through `lookupRate` and written through `objInsert`;
* the Prisma tables are explicit lists of rows, passed in and returned;
* the two fallible external effects of `getExchangeRates` are parameters:
  `storeReadOk : Bool` is whether the initial `findMany` succeeds, and
  `fetch : Except Unit ProviderResponse` is the outcome of the provider call.
-/

namespace CurrencyConverter

/-- A stored exchange-rate row, mirroring the Prisma `ExchangeRate` model:
`baseCurrency`, `currency`, `rate`, `lastUpdated`. -/
structure ExchangeRate where
  baseCurrency : String
  currency : String
  rate : ℚ
  lastUpdated : ℤ
  deriving DecidableEq

/-- A stored transaction row, mirroring the Prisma `Transaction` model. -/
structure Transaction where
  id : ℕ
  userId : ℕ
  fromCurrency : String
  toCurrency : String
  amount : ℚ
  convertedAmount : ℚ
  rate : ℚ
  createdAt : ℤ
  deriving DecidableEq

/-- The JSON body of a provider response, as destructured in
`fetchAndStoreExchangeRates`: `base`, `rates`, and `timestamp` in Unix
seconds (the code multiplies it by 1000 to build `updateTime`). -/
structure ProviderResponse where
  base : String
  rates : List (String × ℚ)
  timestamp : ℤ
  deriving DecidableEq

/-- The `{base, rates, timestamp}` object returned by `getExchangeRates`,
with the ISO timestamp string modelled by its epoch-millisecond value. -/
structure RatesFmt where
  base : String
  rates : List (String × ℚ)
  timestamp : ℤ
  deriving DecidableEq

/-- `this.baseCurrency` of `ExchangeRatesService`. -/
def baseCurrency : String := "USD"

/-- `this.supportedCurrencies` of `ExchangeRatesService`. -/
def supportedCurrencies : List String :=
  ["USD", "EUR", "GBP", "JPY", "CAD", "AUD", "CHF", "CNY", "INR", "NGN"]

/-- `this.cacheExpirationTime`: one hour in milliseconds. -/
def cacheExpirationTime : ℤ := 3600000

/-- JavaScript property read `obj[key]` on an object modelled as an
association list: `none` models `undefined`. -/
def lookupRate (m : List (String × ℚ)) (c : String) : Option ℚ :=
  (m.find? (fun p => p.1 == c)).map (·.2)

/-- JavaScript truthiness of a rate read from an object: `undefined` and
`0` are falsy, every other number is truthy. -/
def jsTruthy : Option ℚ → Bool
  | none => false
  | some x => x != 0

/-- JavaScript object assignment `obj[k] = v`: overwrite the value if the
key is present, otherwise append the key in insertion order. -/
def objInsert (m : List (String × ℚ)) (k : String) (v : ℚ) : List (String × ℚ) :=
  if m.any (fun p => p.1 == k) then m.map (fun p => if p.1 == k then (k, v) else p)
  else m ++ [(k, v)]

/-- Insert a row into a list sorted by `lastUpdated` descending. -/
def insertDesc (r : ExchangeRate) : List ExchangeRate → List ExchangeRate
  | [] => [r]
  | x :: xs => if x.lastUpdated ≤ r.lastUpdated then r :: x :: xs else x :: insertDesc r xs

/-- Sort rows by `lastUpdated` descending (the `orderBy` of the `findMany`). -/
def sortByLastUpdatedDesc : List ExchangeRate → List ExchangeRate
  | [] => []
  | x :: xs => insertDesc x (sortByLastUpdatedDesc xs)

/-- `getExchangeRatesFromDb`: `findMany` of the rows whose `baseCurrency` is
the fixed base currency, ordered by `lastUpdated` descending. -/
def getExchangeRatesFromDb (db : List ExchangeRate) : List ExchangeRate :=
  sortByLastUpdatedDesc (db.filter (fun r => r.baseCurrency == baseCurrency))

/-- The combined guard `cachedRates.length > 0 &&
now.getTime() - cachedRates[0].lastUpdated.getTime() < cacheExpirationTime`
of `getExchangeRates`. -/
def cacheFresh (now : ℤ) : List ExchangeRate → Bool
  | [] => false
  | r :: _ => decide (now - r.lastUpdated < cacheExpirationTime)

/-- `formatExchangeRates`: build the `rates` object row by row and take the
timestamp of the first row (`rates[0]?.lastUpdated` with `new Date()` as the
JavaScript fallback for an empty list). -/
def formatExchangeRates (now : ℤ) (rates : List ExchangeRate) : RatesFmt :=
  { base := baseCurrency
    rates := rates.foldl (fun m r => objInsert m r.currency r.rate) []
    timestamp := match rates with | [] => now | r :: _ => r.lastUpdated }

/-- The filtering loop of `fetchAndStoreExchangeRates`: keep, in
`supportedCurrencies` order, the currencies whose rate in the response is
truthy (`if (rates[currency])`). -/
def filterSupportedRates (rates : List (String × ℚ)) : List (String × ℚ) :=
  supportedCurrencies.filterMap (fun c =>
    match lookupRate rates c with
    | some r => if r != 0 then some (c, r) else none
    | none => none)

/-- The Prisma `exchangeRate.upsert` keyed on the unique
`(baseCurrency, currency)` pair: update the matching row's `rate` and
`lastUpdated` when one exists, otherwise create the row. -/
def upsertRate (db : List ExchangeRate) (base currency : String) (rate : ℚ) (t : ℤ) :
    List ExchangeRate :=
  if db.any (fun r => r.baseCurrency == base && r.currency == currency) then
    db.map (fun r =>
      if r.baseCurrency == base && r.currency == currency then
        { r with rate := rate, lastUpdated := t }
      else r)
  else db ++ [{ baseCurrency := base, currency := currency, rate := rate, lastUpdated := t }]

/-- `fetchAndStoreExchangeRates`: on provider failure the error is rethrown;
on success the response is filtered to supported currencies, every kept pair
is upserted under the response's `base`, and the formatted result is
returned together with the updated store. -/
def fetchAndStoreExchangeRates (fetch : Except Unit ProviderResponse)
    (db : List ExchangeRate) : Except Unit (RatesFmt × List ExchangeRate) :=
  match fetch with
  | .error e => .error e
  | .ok resp =>
    let updateTime := resp.timestamp * 1000
    let supportedRates := filterSupportedRates resp.rates
    let db' := supportedRates.foldl (fun d p => upsertRate d resp.base p.1 p.2 updateTime) db
    .ok ({ base := resp.base, rates := supportedRates, timestamp := updateTime }, db')

/-- `getExchangeRates`: read the cache (a failed read reaches the outer
catch, which raises the InternalServerErrorException modelled as
`.error ()`); return a fresh cache directly; otherwise try the provider,
falling back to any cached rows when the fetch fails and raising the error
only when none exist. The second component is the rate store afterwards. -/
def getExchangeRates (now : ℤ) (storeReadOk : Bool) (db : List ExchangeRate)
    (fetch : Except Unit ProviderResponse) : Except Unit RatesFmt × List ExchangeRate :=
  if storeReadOk then
    let cachedRates := getExchangeRatesFromDb db
    if cacheFresh now cachedRates then
      (.ok (formatExchangeRates now cachedRates), db)
    else
      match fetchAndStoreExchangeRates fetch db with
      | .ok (fmt, db') => (.ok fmt, db')
      | .error _ =>
        if cachedRates.length > 0 then (.ok (formatExchangeRates now cachedRates), db)
        else (.error (), db)
  else (.error (), db)

/-- The errors `convertCurrency` can raise: the two explicit `throw new
Error(...)` sites plus a propagated failure of `getExchangeRates`. -/
inductive ConvError
  | unsupportedCurrency
  | ratesUnavailable
  | rateUnavailable
  deriving DecidableEq

/-- The object returned by a successful `convertCurrency`. -/
structure ConvResult where
  id : ℕ
  fromCurrency : String
  toCurrency : String
  amount : ℚ
  convertedAmount : ℚ
  exchangeRate : ℚ
  timestamp : ℤ
  deriving DecidableEq

deriving instance DecidableEq for Except

/-- The observable outcome of a `convertCurrency` call: its result or error,
and the two persistent tables after the call. -/
structure ConvOutcome where
  result : Except ConvError ConvResult
  rateStore : List ExchangeRate
  txStore : List Transaction
  deriving DecidableEq

/-- `convertCurrency`: validate both currencies against the whitelist, obtain
rates through `getExchangeRates`, reject an absent or zero rate
(`!fromRate || !toRate`), convert through the base currency, create the
transaction row (id from the autoincrement column, `createdAt` from the
database clock) and return the result object. -/
def convertCurrency (now : ℤ) (storeReadOk : Bool) (db : List ExchangeRate)
    (fetch : Except Unit ProviderResponse) (txs : List Transaction)
    (userId : ℕ) (fromCurrency toCurrency : String) (amount : ℚ) : ConvOutcome :=
  if ¬ (supportedCurrencies.contains fromCurrency ∧ supportedCurrencies.contains toCurrency) then
    { result := .error .unsupportedCurrency, rateStore := db, txStore := txs }
  else
    match getExchangeRates now storeReadOk db fetch with
    | (.error _, db') => { result := .error .ratesUnavailable, rateStore := db', txStore := txs }
    | (.ok rates, db') =>
      let fromRate := lookupRate rates.rates fromCurrency
      let toRate := lookupRate rates.rates toCurrency
      if ¬ (jsTruthy fromRate ∧ jsTruthy toRate) then
        { result := .error .rateUnavailable, rateStore := db', txStore := txs }
      else
        let valueInBaseCurrency := amount / fromRate.getD 0
        let convertedAmount := valueInBaseCurrency * toRate.getD 0
        let exchangeRate := toRate.getD 0 / fromRate.getD 0
        let transaction : Transaction :=
          { id := txs.length + 1, userId := userId, fromCurrency := fromCurrency,
            toCurrency := toCurrency, amount := amount, convertedAmount := convertedAmount,
            rate := exchangeRate, createdAt := now }
        { result := .ok { id := transaction.id, fromCurrency := fromCurrency,
                          toCurrency := toCurrency, amount := amount,
                          convertedAmount := convertedAmount, exchangeRate := exchangeRate,
                          timestamp := transaction.createdAt },
          rateStore := db', txStore := txs ++ [transaction] }

/-- Modelled from the spec: the repository's `user.service.ts` is absent from
the source tree (only `user.controller.ts`, which delegates to it, is
present). Per the spec, a Transaction is owned exclusively by its `userId`
and visible only to that user, so the listing returns exactly the caller's
rows. -/
def getUserTransactions (txs : List Transaction) (userId : ℕ) : List Transaction :=
  txs.filter (fun t => t.userId == userId)

/-! ### Sample data used by the witnesses -/

/-- A cached USD-based snapshot for EUR, last updated at epoch 0. -/
def sampleEurRow : ExchangeRate :=
  { baseCurrency := "USD", currency := "EUR", rate := mkRat 93 100, lastUpdated := 0 }

/-- A cached USD-based snapshot for USD itself, last updated at epoch 0. -/
def sampleUsdRow : ExchangeRate :=
  { baseCurrency := "USD", currency := "USD", rate := 1, lastUpdated := 0 }

/-- The two-row store used by the conversion witnesses. -/
def sampleDb : List ExchangeRate := [sampleUsdRow, sampleEurRow]

/-- The formatted rate set served from `sampleDb` at time 0. -/
def sampleFmt : RatesFmt := formatExchangeRates 0 (getExchangeRatesFromDb sampleDb)

/-- The result of converting 100 USD to EUR against `sampleDb`. -/
def sampleConvRes : ConvResult :=
  { id := 1, fromCurrency := "USD", toCurrency := "EUR", amount := 100,
    convertedAmount := 100 / 1 * mkRat 93 100, exchangeRate := mkRat 93 100 / 1,
    timestamp := 0 }

/-- A provider response carrying no usable rates. -/
def sampleEmptyResp : ProviderResponse := { base := "USD", rates := [], timestamp := 5 }

/-- A transaction row owned by user 1. -/
def sampleTxMine : Transaction :=
  { id := 1, userId := 1, fromCurrency := "USD", toCurrency := "EUR", amount := 100,
    convertedAmount := 93, rate := 1, createdAt := 0 }

/-- A transaction row owned by user 2. -/
def sampleTxOther : Transaction :=
  { id := 2, userId := 2, fromCurrency := "EUR", toCurrency := "USD", amount := 5,
    convertedAmount := 5, rate := 1, createdAt := 0 }

/-! ### Helper lemmas about the rate store ordering and lookups -/

theorem insertDesc_ne_nil (r : ExchangeRate) (l : List ExchangeRate) :
    insertDesc r l ≠ [] := by
  cases l with
  | nil => simp [insertDesc]
  | cons x xs =>
    simp only [insertDesc]
    split <;> simp

theorem mem_insertDesc {r a : ExchangeRate} {l : List ExchangeRate} :
    a ∈ insertDesc r l ↔ a = r ∨ a ∈ l := by
  induction l with
  | nil => simp [insertDesc]
  | cons x xs ih =>
    simp only [insertDesc]
    split
    · simp [or_comm, or_assoc, or_left_comm]
    · simp [ih]
      tauto

theorem mem_sortByLastUpdatedDesc {a : ExchangeRate} {l : List ExchangeRate} :
    a ∈ sortByLastUpdatedDesc l ↔ a ∈ l := by
  induction l with
  | nil => simp [sortByLastUpdatedDesc]
  | cons x xs ih =>
    simp only [sortByLastUpdatedDesc]
    rw [mem_insertDesc]
    simp [ih]

theorem sortByLastUpdatedDesc_eq_nil_iff {l : List ExchangeRate} :
    sortByLastUpdatedDesc l = [] ↔ l = [] := by
  cases l with
  | nil => simp [sortByLastUpdatedDesc]
  | cons x xs =>
    simp only [sortByLastUpdatedDesc]
    exact ⟨fun h => absurd h (insertDesc_ne_nil _ _), fun h => by simp at h⟩

theorem sortByLastUpdatedDesc_head_max : ∀ {l : List ExchangeRate} {h : ExchangeRate}
    {t : List ExchangeRate}, sortByLastUpdatedDesc l = h :: t →
    ∀ a ∈ l, a.lastUpdated ≤ h.lastUpdated := by
  intro l
  induction l with
  | nil => intro h t hst a ha; simp at ha
  | cons x xs ih =>
    intro h t hst a ha
    simp only [sortByLastUpdatedDesc] at hst
    rcases hs : sortByLastUpdatedDesc xs with _ | ⟨y, ys⟩
    · have hxs : xs = [] := sortByLastUpdatedDesc_eq_nil_iff.mp hs
      subst hxs
      rw [hs] at hst
      simp only [insertDesc] at hst
      obtain ⟨rfl, rfl⟩ := List.cons_eq_cons.mp hst
      rcases List.mem_singleton.mp (by simpa using ha) with rfl
      exact le_refl _
    · rw [hs] at hst
      simp only [insertDesc] at hst
      have ihy := ih hs
      split at hst
      · rename_i hle
        obtain rfl := (List.cons.inj hst).1
        rcases List.mem_cons.mp ha with rfl | hmem
        · exact le_refl _
        · exact le_trans (ihy a hmem) hle
      · rename_i hlt
        obtain rfl := (List.cons.inj hst).1
        rcases List.mem_cons.mp ha with rfl | hmem
        · exact le_of_lt (lt_of_not_le hlt)
        · exact ihy a hmem

theorem mem_getExchangeRatesFromDb {a : ExchangeRate} {db : List ExchangeRate} :
    a ∈ getExchangeRatesFromDb db ↔ a ∈ db ∧ a.baseCurrency = baseCurrency := by
  unfold getExchangeRatesFromDb
  rw [mem_sortByLastUpdatedDesc, List.mem_filter]
  simp

theorem getExchangeRatesFromDb_eq_nil_iff {db : List ExchangeRate} :
    getExchangeRatesFromDb db = [] ↔ ∀ r ∈ db, r.baseCurrency ≠ baseCurrency := by
  unfold getExchangeRatesFromDb
  rw [sortByLastUpdatedDesc_eq_nil_iff, List.filter_eq_nil_iff]
  simp

theorem cacheFresh_of_mem {now : ℤ} {db : List ExchangeRate} {r : ExchangeRate}
    (hr : r ∈ db) (hb : r.baseCurrency = baseCurrency)
    (hf : now - r.lastUpdated < cacheExpirationTime) :
    cacheFresh now (getExchangeRatesFromDb db) = true := by
  have hmem : r ∈ getExchangeRatesFromDb db := mem_getExchangeRatesFromDb.mpr ⟨hr, hb⟩
  rcases hst : getExchangeRatesFromDb db with _ | ⟨h, t⟩
  · rw [hst] at hmem; simp at hmem
  · have hmax : r.lastUpdated ≤ h.lastUpdated := by
      refine sortByLastUpdatedDesc_head_max hst r ?_
      have := mem_getExchangeRatesFromDb.mp hmem
      exact List.mem_filter.mpr ⟨this.1, by simp [this.2]⟩
    simp only [cacheFresh, decide_eq_true_eq]
    calc now - h.lastUpdated ≤ now - r.lastUpdated := by omega
      _ < cacheExpirationTime := hf

theorem jsTruthy_iff {o : Option ℚ} : jsTruthy o = true ↔ ∃ x, o = some x ∧ x ≠ 0 := by
  cases o with
  | none => simp [jsTruthy]
  | some x => simp [jsTruthy, bne_iff_ne]

/-! ### Helper lemmas about `getExchangeRates` and `convertCurrency` -/

theorem getExchangeRates_fresh {now : ℤ} {db : List ExchangeRate}
    {fetch : Except Unit ProviderResponse}
    (h : cacheFresh now (getExchangeRatesFromDb db) = true) :
    getExchangeRates now true db fetch
      = (.ok (formatExchangeRates now (getExchangeRatesFromDb db)), db) := by
  simp [getExchangeRates, h]

theorem getExchangeRates_fallback {now : ℤ} {db : List ExchangeRate}
    (hne : getExchangeRatesFromDb db ≠ []) :
    getExchangeRates now true db (.error ())
      = (.ok (formatExchangeRates now (getExchangeRatesFromDb db)), db) := by
  have hlen : (getExchangeRatesFromDb db).length > 0 := List.length_pos.mpr hne
  by_cases h : cacheFresh now (getExchangeRatesFromDb db) = true
  · simp [getExchangeRates, h]
  · simp [getExchangeRates, h, fetchAndStoreExchangeRates, hlen]

theorem getExchangeRates_error_iff {now : ℤ} {storeReadOk : Bool} {db : List ExchangeRate}
    {fetch : Except Unit ProviderResponse} :
    (getExchangeRates now storeReadOk db fetch).1 = .error () ↔
      storeReadOk = false ∨ (getExchangeRatesFromDb db = [] ∧ fetch = .error ()) := by
  cases storeReadOk with
  | false => simp [getExchangeRates]
  | true =>
    simp only [Bool.true_eq_false, false_or]
    by_cases h : cacheFresh now (getExchangeRatesFromDb db) = true
    · have hne : getExchangeRatesFromDb db ≠ [] := by
        intro hnil; rw [hnil] at h; simp [cacheFresh] at h
      simp [getExchangeRates, h, hne]
    · cases fetch with
      | ok resp => simp [getExchangeRates, h, fetchAndStoreExchangeRates]
      | error e =>
        by_cases hnil : getExchangeRatesFromDb db = []
        · simp [getExchangeRates, hnil, cacheFresh, fetchAndStoreExchangeRates]
        · have hlen : (getExchangeRatesFromDb db).length > 0 := List.length_pos.mpr hnil
          simp [getExchangeRates, h, fetchAndStoreExchangeRates, hlen, hnil]

theorem getExchangeRates_empty_cache_fetch {now : ℤ} {db : List ExchangeRate}
    {resp : ProviderResponse} (hnil : getExchangeRatesFromDb db = []) :
    getExchangeRates now true db (.ok resp) =
      (.ok { base := resp.base, rates := filterSupportedRates resp.rates,
             timestamp := resp.timestamp * 1000 },
       (filterSupportedRates resp.rates).foldl
         (fun d p => upsertRate d resp.base p.1 p.2 (resp.timestamp * 1000)) db) := by
  simp [getExchangeRates, hnil, cacheFresh, fetchAndStoreExchangeRates]

theorem convertCurrency_result_ok_iff {now : ℤ} {storeReadOk : Bool} {db : List ExchangeRate}
    {fetch : Except Unit ProviderResponse} {txs : List Transaction} {u : ℕ}
    {fc tc : String} {x : ℚ} {res : ConvResult} :
    (convertCurrency now storeReadOk db fetch txs u fc tc x).result = .ok res ↔
      (supportedCurrencies.contains fc = true ∧ supportedCurrencies.contains tc = true) ∧
      ∃ fmt db' fr tr,
        getExchangeRates now storeReadOk db fetch = (.ok fmt, db') ∧
        lookupRate fmt.rates fc = some fr ∧ fr ≠ 0 ∧
        lookupRate fmt.rates tc = some tr ∧ tr ≠ 0 ∧
        res = { id := txs.length + 1, fromCurrency := fc, toCurrency := tc, amount := x,
                convertedAmount := x / fr * tr, exchangeRate := tr / fr, timestamp := now } := by
  unfold convertCurrency
  split
  · rename_i hnot
    refine iff_of_false (by simp) ?_
    rintro ⟨hsup, -⟩
    exact hnot hsup
  · rename_i hsup
    rw [not_not] at hsup
    split
    · rename_i e db2 heq
      refine iff_of_false (by simp) ?_
      rintro ⟨-, fmt, db', fr, tr, hE, -⟩
      rw [heq] at hE
      simp at hE
    · rename_i rates db2 heq
      dsimp only
      split
      · rename_i hrt
        refine iff_of_false (by simp) ?_
        rintro ⟨-, fmt, db', fr, tr, hE, hfr, hfr0, htr, htr0, -⟩
        rw [heq] at hE
        obtain ⟨hfmt, -⟩ := Prod.mk.injEq .. ▸ hE
        obtain rfl : rates = fmt := by
          have := congrArg (fun p => p.1) hE
          simpa using this
        exact hrt ⟨jsTruthy_iff.mpr ⟨fr, hfr, hfr0⟩, jsTruthy_iff.mpr ⟨tr, htr, htr0⟩⟩
      · rename_i hrt
        rw [not_not] at hrt
        obtain ⟨hf, ht⟩ := hrt
        obtain ⟨fr, hfr, hfr0⟩ := jsTruthy_iff.mp hf
        obtain ⟨tr, htr, htr0⟩ := jsTruthy_iff.mp ht
        simp only [Except.ok.injEq]
        constructor
        · intro hres
          refine ⟨hsup, rates, db2, fr, tr, heq, hfr, hfr0, htr, htr0, ?_⟩
          rw [← hres]
          simp [hfr, htr]
        · rintro ⟨-, fmt, db', fr', tr', hE, hfr', hfr0', htr', htr0', hres⟩
          rw [heq] at hE
          obtain rfl : rates = fmt := by
            have := congrArg (fun p => p.1) hE
            simpa using this
          rw [hfr] at hfr'
          rw [htr] at htr'
          obtain rfl : fr = fr' := by simpa using hfr'
          obtain rfl : tr = tr' := by simpa using htr'
          rw [hres]
          simp [hfr, htr]

theorem contains_iff_mem {c : String} {l : List String} : l.contains c = true ↔ c ∈ l := by
  simp

theorem convertCurrency_unsupported {now : ℤ} {storeReadOk : Bool} {db : List ExchangeRate}
    {fetch : Except Unit ProviderResponse} {txs : List Transaction} {u : ℕ}
    {fc tc : String} {x : ℚ}
    (h : ¬ (fc ∈ supportedCurrencies ∧ tc ∈ supportedCurrencies)) :
    convertCurrency now storeReadOk db fetch txs u fc tc x
      = { result := .error .unsupportedCurrency, rateStore := db, txStore := txs } := by
  have hc : ¬ (supportedCurrencies.contains fc = true ∧ supportedCurrencies.contains tc = true) := by
    intro hcon
    exact h ⟨contains_iff_mem.mp hcon.1, contains_iff_mem.mp hcon.2⟩
  unfold convertCurrency
  rw [if_pos hc]

theorem convertCurrency_rateUnavailable {now : ℤ} {storeReadOk : Bool} {db : List ExchangeRate}
    {fetch : Except Unit ProviderResponse} {txs : List Transaction} {u : ℕ}
    {fc tc : String} {x : ℚ} {fmt : RatesFmt} {db' : List ExchangeRate}
    (hsup : supportedCurrencies.contains fc = true ∧ supportedCurrencies.contains tc = true)
    (hE : getExchangeRates now storeReadOk db fetch = (.ok fmt, db'))
    (habs : ¬ (jsTruthy (lookupRate fmt.rates fc) = true
                ∧ jsTruthy (lookupRate fmt.rates tc) = true)) :
    convertCurrency now storeReadOk db fetch txs u fc tc x
      = { result := .error .rateUnavailable, rateStore := db', txStore := txs } := by
  have hsup' : fc ∈ supportedCurrencies ∧ tc ∈ supportedCurrencies :=
    ⟨contains_iff_mem.mp hsup.1, contains_iff_mem.mp hsup.2⟩
  unfold convertCurrency
  rw [hE]
  simp [hsup', habs]

theorem convertCurrency_txStore_eq (now : ℤ) (storeReadOk : Bool) (db : List ExchangeRate)
    (fetch : Except Unit ProviderResponse) (txs : List Transaction) (u : ℕ)
    (fc tc : String) (x : ℚ) :
    (∃ e, (convertCurrency now storeReadOk db fetch txs u fc tc x).result = .error e ∧
      (convertCurrency now storeReadOk db fetch txs u fc tc x).txStore = txs) ∨
    ∃ res, (convertCurrency now storeReadOk db fetch txs u fc tc x).result = .ok res ∧
      (convertCurrency now storeReadOk db fetch txs u fc tc x).txStore =
        txs ++ [{ id := res.id, userId := u, fromCurrency := fc, toCurrency := tc,
                  amount := res.amount, convertedAmount := res.convertedAmount,
                  rate := res.exchangeRate, createdAt := res.timestamp }] := by
  unfold convertCurrency
  split
  · exact Or.inl ⟨_, rfl, rfl⟩
  · split
    · exact Or.inl ⟨_, rfl, rfl⟩
    · dsimp only
      split
      · exact Or.inl ⟨_, rfl, rfl⟩
      · exact Or.inr ⟨_, rfl, rfl⟩

theorem convertCurrency_error_txStore {now : ℤ} {storeReadOk : Bool} {db : List ExchangeRate}
    {fetch : Except Unit ProviderResponse} {txs : List Transaction} {u : ℕ}
    {fc tc : String} {x : ℚ} {e : ConvError}
    (h : (convertCurrency now storeReadOk db fetch txs u fc tc x).result = .error e) :
    (convertCurrency now storeReadOk db fetch txs u fc tc x).txStore = txs := by
  rcases convertCurrency_txStore_eq now storeReadOk db fetch txs u fc tc x with
    ⟨e', -, h1⟩ | ⟨res, hres, -⟩
  · exact h1
  · rw [h] at hres; simp at hres

theorem convertCurrency_ok_txStore {now : ℤ} {storeReadOk : Bool} {db : List ExchangeRate}
    {fetch : Except Unit ProviderResponse} {txs : List Transaction} {u : ℕ}
    {fc tc : String} {x : ℚ} {res : ConvResult}
    (h : (convertCurrency now storeReadOk db fetch txs u fc tc x).result = .ok res) :
    (convertCurrency now storeReadOk db fetch txs u fc tc x).txStore =
      txs ++ [{ id := res.id, userId := u, fromCurrency := fc, toCurrency := tc,
                amount := res.amount, convertedAmount := res.convertedAmount,
                rate := res.exchangeRate, createdAt := res.timestamp }] := by
  rcases convertCurrency_txStore_eq now storeReadOk db fetch txs u fc tc x with
    ⟨e, herr, -⟩ | ⟨res', hres, htx⟩
  · rw [h] at herr; simp at herr
  · rw [h] at hres
    obtain rfl : res = res' := by simpa using hres
    exact htx

/-! ### The claims -/

/-- C1: `getExchangeRates` raises its failure (the
`InternalServerErrorException` standing for `RatesUnavailableError`) exactly
when the initial store read fails — in which case the outcome is the error
for every provider outcome, so no fetch is consulted — or when no cached
snapshot for the base currency exists and the provider fetch fails; whenever
the fetch fails but at least one cached snapshot exists (however stale), the
cached snapshots are returned formatted as `{base, rates, timestamp}` with
the store untouched. -/
theorem getExchangeRates_failure_and_fallback (now : ℤ) (db : List ExchangeRate)
    (fetch : Except Unit ProviderResponse) (storeReadOk : Bool) :
    (getExchangeRates now false db fetch = (.error (), db))
    ∧ (getExchangeRatesFromDb db ≠ [] → fetch = .error () →
        getExchangeRates now true db fetch
          = (.ok (formatExchangeRates now (getExchangeRatesFromDb db)), db))
    ∧ ((getExchangeRates now storeReadOk db fetch).1 = .error () ↔
        storeReadOk = false ∨ (getExchangeRatesFromDb db = [] ∧ fetch = .error ()))
    ∧ (getExchangeRatesFromDb db = [] ↔ ∀ r ∈ db, r.baseCurrency ≠ baseCurrency) := by
  refine ⟨by simp [getExchangeRates], ?_, getExchangeRates_error_iff,
    getExchangeRatesFromDb_eq_nil_iff⟩
  intro hne hf
  subst hf
  exact getExchangeRates_fallback hne

/-- Witness for C1: with a single stale cached snapshot (two hours old) and
a failing fetch, the cached data is returned and the store is unchanged. -/
theorem getExchangeRates_failure_and_fallback_witness :
    getExchangeRates 7200000 true [sampleEurRow] (.error ())
      = (.ok (formatExchangeRates 7200000 (getExchangeRatesFromDb [sampleEurRow])),
         [sampleEurRow]) :=
  (getExchangeRates_failure_and_fallback 7200000 [sampleEurRow] (.error ()) true).2.1
    (by decide) rfl

/-- C2: when some cached snapshot for the base currency is within the
freshness window, `getExchangeRates` returns the cached set formatted as
`{base, rates, timestamp}`, leaves the rate store unchanged, and its outcome
is the same for every provider outcome (the provider is not consulted). -/
theorem getExchangeRates_fresh_cache_hit (now : ℤ) (db : List ExchangeRate)
    (fetch fetch' : Except Unit ProviderResponse) (r : ExchangeRate)
    (hr : r ∈ db) (hb : r.baseCurrency = baseCurrency)
    (hf : now - r.lastUpdated < cacheExpirationTime) :
    getExchangeRates now true db fetch
      = (.ok (formatExchangeRates now (getExchangeRatesFromDb db)), db)
    ∧ getExchangeRates now true db fetch = getExchangeRates now true db fetch' := by
  have h := cacheFresh_of_mem hr hb hf
  exact ⟨getExchangeRates_fresh h, by rw [getExchangeRates_fresh h, getExchangeRates_fresh h]⟩

/-- Witness for C2: a snapshot updated 30 minutes ago is served from the
cache even when the provider would fail. -/
theorem getExchangeRates_fresh_cache_hit_witness :
    getExchangeRates 1800000 true [sampleEurRow] (.error ())
      = (.ok (formatExchangeRates 1800000 (getExchangeRatesFromDb [sampleEurRow])),
         [sampleEurRow]) :=
  (getExchangeRates_fresh_cache_hit 1800000 [sampleEurRow] (.error ())
    (.ok { base := "USD", rates := [], timestamp := 0 }) sampleEurRow
    (by decide) (by decide) (by decide)).1

/-- The sample conversion succeeds with `sampleConvRes`; shared by several
witnesses below. -/
theorem sampleConversion_ok :
    (convertCurrency 0 true sampleDb (.error ()) [] 1 "USD" "EUR" 100).result
      = .ok sampleConvRes :=
  convertCurrency_result_ok_iff.mpr ⟨by decide, sampleFmt, sampleDb, 1, mkRat 93 100,
    by decide, by decide, by decide, by decide, by decide, rfl⟩

/-- C3: every successful conversion takes its two rates `fr` and `tr` from
the obtained rate set and returns `convertedAmount = (amount / fr) * tr` and
`exchangeRate = tr / fr`; a zero amount always converts to zero, and
converting a currency to itself returns the amount unchanged with rate 1
(exactly, over the rationals). -/
theorem convertCurrency_arithmetic (now : ℤ) (storeReadOk : Bool) (db : List ExchangeRate)
    (fetch : Except Unit ProviderResponse) (txs : List Transaction) (u : ℕ)
    (fc tc : String) (x : ℚ) (res : ConvResult)
    (h : (convertCurrency now storeReadOk db fetch txs u fc tc x).result = .ok res) :
    ∃ fmt db' fr tr,
      getExchangeRates now storeReadOk db fetch = (.ok fmt, db')
      ∧ lookupRate fmt.rates fc = some fr ∧ lookupRate fmt.rates tc = some tr
      ∧ res.convertedAmount = x / fr * tr
      ∧ res.exchangeRate = tr / fr
      ∧ (x = 0 → res.convertedAmount = 0)
      ∧ (fc = tc → res.convertedAmount = x ∧ res.exchangeRate = 1) := by
  rcases convertCurrency_result_ok_iff.mp h with
    ⟨hsup, fmt, db', fr, tr, hE, hfr, hfr0, htr, htr0, hres⟩
  subst hres
  refine ⟨fmt, db', fr, tr, hE, hfr, htr, rfl, rfl, ?_, ?_⟩
  · intro hx; simp [hx]
  · intro hft
    subst hft
    rw [hfr] at htr
    obtain rfl : fr = tr := by simpa using htr
    exact ⟨div_mul_cancel₀ x hfr0, div_self hfr0⟩

/-- Witness for C3: converting 100 USD to EUR with cached rates
`USD ↦ 1, EUR ↦ 0.93` yields `100 / 1 * 0.93` at rate `0.93 / 1`. -/
theorem convertCurrency_arithmetic_witness :
    ∃ fmt db' fr tr,
      getExchangeRates 0 true sampleDb (.error ()) = (.ok fmt, db')
      ∧ lookupRate fmt.rates "USD" = some fr ∧ lookupRate fmt.rates "EUR" = some tr
      ∧ sampleConvRes.convertedAmount = 100 / fr * tr
      ∧ sampleConvRes.exchangeRate = tr / fr
      ∧ ((100 : ℚ) = 0 → sampleConvRes.convertedAmount = 0)
      ∧ ("USD" = "EUR" → sampleConvRes.convertedAmount = 100 ∧ sampleConvRes.exchangeRate = 1) :=
  convertCurrency_arithmetic 0 true sampleDb (.error ()) [] 1 "USD" "EUR" 100 sampleConvRes
    sampleConversion_ok

/-- C4: an unsupported source or target currency fails with the
unsupported-currency error before any rate is read, leaving both stores
untouched; a currency absent from the obtained rate mapping fails with the
rate-unavailable error; and every failing call leaves the transaction table
unchanged. -/
theorem convertCurrency_validation_failures (now : ℤ) (storeReadOk : Bool)
    (db : List ExchangeRate) (fetch : Except Unit ProviderResponse) (txs : List Transaction)
    (u : ℕ) (fc tc : String) (x : ℚ) :
    (¬ (fc ∈ supportedCurrencies ∧ tc ∈ supportedCurrencies) →
        convertCurrency now storeReadOk db fetch txs u fc tc x
          = { result := .error .unsupportedCurrency, rateStore := db, txStore := txs })
    ∧ (∀ fmt db', getExchangeRates now storeReadOk db fetch = (.ok fmt, db') →
        fc ∈ supportedCurrencies → tc ∈ supportedCurrencies →
        (lookupRate fmt.rates fc = none ∨ lookupRate fmt.rates tc = none) →
        convertCurrency now storeReadOk db fetch txs u fc tc x
          = { result := .error .rateUnavailable, rateStore := db', txStore := txs })
    ∧ (∀ e, (convertCurrency now storeReadOk db fetch txs u fc tc x).result = .error e →
        (convertCurrency now storeReadOk db fetch txs u fc tc x).txStore = txs) := by
  refine ⟨convertCurrency_unsupported, ?_, fun e h => convertCurrency_error_txStore h⟩
  intro fmt db' hE hfc htc habs
  refine convertCurrency_rateUnavailable ⟨contains_iff_mem.mpr hfc, contains_iff_mem.mpr htc⟩ hE ?_
  rintro ⟨h1, h2⟩
  rcases habs with h | h
  · rw [h] at h1; simp [jsTruthy] at h1
  · rw [h] at h2; simp [jsTruthy] at h2

/-- Witness for C4: converting from the unsupported code "XYZ" fails with
the unsupported-currency error and writes nothing. -/
theorem convertCurrency_validation_failures_witness :
    convertCurrency 0 true sampleDb (.error ()) [] 1 "XYZ" "USD" 5
      = { result := .error .unsupportedCurrency, rateStore := sampleDb, txStore := [] } :=
  (convertCurrency_validation_failures 0 true sampleDb (.error ()) [] 1 "XYZ" "USD" 5).1
    (by decide)

/-- C5: converting a positive amount from `a` to `b` and converting the
result back from `b` to `a` against the same store, clock and provider
outcome succeeds and returns exactly the original amount (exact rational
arithmetic). -/
theorem convertCurrency_round_trip (now : ℤ) (storeReadOk : Bool) (db : List ExchangeRate)
    (fetch : Except Unit ProviderResponse) (txs txs₂ : List Transaction) (u : ℕ)
    (a b : String) (x : ℚ) (r1 : ConvResult)
    (_hx : 0 < x)
    (h1 : (convertCurrency now storeReadOk db fetch txs u a b x).result = .ok r1) :
    ∃ r2, (convertCurrency now storeReadOk db fetch txs₂ u b a r1.convertedAmount).result = .ok r2
      ∧ r2.convertedAmount = x := by
  rcases convertCurrency_result_ok_iff.mp h1 with
    ⟨⟨hsa, hsb⟩, fmt, db', fr, tr, hE, hfr, hfr0, htr, htr0, hres⟩
  subst hres
  refine ⟨_, convertCurrency_result_ok_iff.mpr
    ⟨⟨hsb, hsa⟩, fmt, db', tr, fr, hE, htr, htr0, hfr, hfr0, rfl⟩, ?_⟩
  show x / fr * tr / tr * fr = x
  rw [mul_div_cancel_right₀ _ htr0, div_mul_cancel₀ _ hfr0]

/-- Witness for C5: 100 USD converted to EUR and back against the sample
store returns exactly 100. -/
theorem convertCurrency_round_trip_witness :
    ∃ r2, (convertCurrency 0 true sampleDb (.error ()) [] 1 "EUR" "USD"
             sampleConvRes.convertedAmount).result = .ok r2
      ∧ r2.convertedAmount = 100 :=
  convertCurrency_round_trip 0 true sampleDb (.error ()) [] [] 1 "USD" "EUR" 100 sampleConvRes
    (by norm_num) sampleConversion_ok

/-- C6: every successful conversion appends exactly one transaction row,
whose `userId`, `fromCurrency`, `toCurrency`, `amount`, `convertedAmount`
and `rate` are exactly the returned values, with the result's `id` and
`timestamp` being the row's `id` and `createdAt`. -/
theorem convertCurrency_records_transaction (now : ℤ) (storeReadOk : Bool)
    (db : List ExchangeRate) (fetch : Except Unit ProviderResponse) (txs : List Transaction)
    (u : ℕ) (fc tc : String) (x : ℚ) (res : ConvResult)
    (h : (convertCurrency now storeReadOk db fetch txs u fc tc x).result = .ok res) :
    (convertCurrency now storeReadOk db fetch txs u fc tc x).txStore
      = txs ++ [{ id := res.id, userId := u, fromCurrency := fc, toCurrency := tc,
                  amount := res.amount, convertedAmount := res.convertedAmount,
                  rate := res.exchangeRate, createdAt := res.timestamp }]
    ∧ res.fromCurrency = fc ∧ res.toCurrency = tc ∧ res.amount = x := by
  refine ⟨convertCurrency_ok_txStore h, ?_⟩
  rcases convertCurrency_result_ok_iff.mp h with ⟨-, fmt, db', fr, tr, -, -, -, -, -, hres⟩
  subst hres
  exact ⟨rfl, rfl, rfl⟩

/-- Witness for C6: the sample conversion appends exactly the transaction
row carrying the returned values. -/
theorem convertCurrency_records_transaction_witness :
    (convertCurrency 0 true sampleDb (.error ()) [] 1 "USD" "EUR" 100).txStore
      = [] ++ [{ id := sampleConvRes.id, userId := 1, fromCurrency := "USD",
                 toCurrency := "EUR", amount := sampleConvRes.amount,
                 convertedAmount := sampleConvRes.convertedAmount,
                 rate := sampleConvRes.exchangeRate, createdAt := sampleConvRes.timestamp }]
    ∧ sampleConvRes.fromCurrency = "USD" ∧ sampleConvRes.toCurrency = "EUR"
    ∧ sampleConvRes.amount = 100 :=
  convertCurrency_records_transaction 0 true sampleDb (.error ()) [] 1 "USD" "EUR" 100
    sampleConvRes sampleConversion_ok

theorem mem_upsertRate_of_currency_ne {row : ExchangeRate} {db : List ExchangeRate}
    {b c : String} {r : ℚ} {t : ℤ} (hrow : row ∈ db) (hc : row.currency ≠ c) :
    row ∈ upsertRate db b c r t := by
  unfold upsertRate
  split
  · exact List.mem_map.mpr ⟨row, hrow, by simp [hc]⟩
  · exact List.mem_append_left _ hrow

theorem upsertRate_creates {db : List ExchangeRate} {b c : String} {r : ℚ} {t : ℤ} :
    ∃ row ∈ upsertRate db b c r t,
      row.baseCurrency = b ∧ row.currency = c ∧ row.rate = r ∧ row.lastUpdated = t := by
  unfold upsertRate
  split
  · rename_i hany
    obtain ⟨row, hrow, hmatch⟩ := List.any_eq_true.mp hany
    refine ⟨{ row with rate := r, lastUpdated := t },
      List.mem_map.mpr ⟨row, hrow, if_pos hmatch⟩, ?_, ?_, rfl, rfl⟩
    · simp only [Bool.and_eq_true, beq_iff_eq] at hmatch
      exact hmatch.1
    · simp only [Bool.and_eq_true, beq_iff_eq] at hmatch
      exact hmatch.2
  · exact ⟨_, List.mem_append_right _ (List.mem_singleton_self _), rfl, rfl, rfl, rfl⟩

theorem upsertRate_base_of_mem {row : ExchangeRate} {db : List ExchangeRate}
    {b c : String} {r : ℚ} {t : ℤ} (h : row ∈ upsertRate db b c r t) :
    row ∈ db ∨ row.baseCurrency = b := by
  unfold upsertRate at h
  split at h
  · obtain ⟨row', hrow', heq⟩ := List.mem_map.mp h
    by_cases hm : (row'.baseCurrency == b && row'.currency == c) = true
    · rw [if_pos hm] at heq
      right
      rw [← heq]
      simp only [Bool.and_eq_true, beq_iff_eq] at hm
      exact hm.1
    · rw [if_neg hm] at heq
      left
      rw [← heq]
      exact hrow'
  · rcases List.mem_append.mp h with h1 | h2
    · exact Or.inl h1
    · right
      rw [List.mem_singleton.mp h2]

theorem foldl_upsert_base {ps : List (String × ℚ)} {db : List ExchangeRate} {b : String}
    {t : ℤ} {row : ExchangeRate}
    (h : row ∈ ps.foldl (fun d p => upsertRate d b p.1 p.2 t) db) :
    row ∈ db ∨ row.baseCurrency = b := by
  induction ps generalizing db with
  | nil => exact Or.inl h
  | cons p rest ih =>
    rw [List.foldl_cons] at h
    rcases ih h with h1 | h2
    · exact upsertRate_base_of_mem h1
    · exact Or.inr h2

theorem mem_foldl_upsert_of_not_key {ps : List (String × ℚ)} {db : List ExchangeRate}
    {b : String} {t : ℤ} {row : ExchangeRate}
    (hrow : row ∈ db) (h : ∀ p ∈ ps, row.currency ≠ p.1) :
    row ∈ ps.foldl (fun d p => upsertRate d b p.1 p.2 t) db := by
  induction ps generalizing db with
  | nil => exact hrow
  | cons p rest ih =>
    rw [List.foldl_cons]
    exact ih (mem_upsertRate_of_currency_ne hrow (h p (List.mem_cons_self _ _)))
      (fun q hq => h q (List.mem_cons_of_mem _ hq))

theorem foldl_upsert_visible {ps : List (String × ℚ)} {b : String} {t : ℤ}
    (hnd : (ps.map Prod.fst).Nodup) :
    ∀ db : List ExchangeRate, ∀ p ∈ ps,
      ∃ row ∈ ps.foldl (fun d q => upsertRate d b q.1 q.2 t) db,
        row.baseCurrency = b ∧ row.currency = p.1 ∧ row.rate = p.2 ∧ row.lastUpdated = t := by
  induction ps with
  | nil => intro db p hp; simp at hp
  | cons q rest ih =>
    intro db p hp
    rw [List.map_cons, List.nodup_cons] at hnd
    rcases List.mem_cons.mp hp with rfl | hmem
    · obtain ⟨row, hrowmem, hb, hc, hr, ht⟩ :=
        @upsertRate_creates db b p.1 p.2 t
      refine ⟨row, ?_, hb, hc, hr, ht⟩
      rw [List.foldl_cons]
      apply mem_foldl_upsert_of_not_key hrowmem
      intro s hs
      rw [hc]
      intro hcontra
      exact hnd.1 (by rw [hcontra]; exact List.mem_map.mpr ⟨s, hs, rfl⟩)
    · rw [List.foldl_cons]
      exact ih hnd.2 _ p hmem

theorem keys_of_filterMap_sublist (g : String → Option (String × ℚ))
    (hg : ∀ c p, g c = some p → p.1 = c) :
    ∀ l : List String, ((l.filterMap g).map Prod.fst).Sublist l := by
  intro l
  induction l with
  | nil => simp
  | cons c cs ih =>
    rw [List.filterMap_cons]
    cases hgc : g c with
    | none => exact ih.cons c
    | some p =>
      rw [List.map_cons, hg c p hgc]
      exact ih.cons₂ c

theorem filterSupportedRates_keys_nodup (rates : List (String × ℚ)) :
    ((filterSupportedRates rates).map Prod.fst).Nodup := by
  have hsub := keys_of_filterMap_sublist
    (fun c => match lookupRate rates c with
      | some r => if r != 0 then some (c, r) else none
      | none => none)
    (by
      intro c p hp
      dsimp only at hp
      cases hl : lookupRate rates c with
      | none => rw [hl] at hp; simp at hp
      | some r =>
        rw [hl] at hp
        dsimp only at hp
        by_cases hr : (r != 0) = true
        · rw [if_pos hr] at hp
          injection hp with h
          rw [← h]
        · rw [if_neg hr] at hp; simp at hp)
    supportedCurrencies
  exact hsub.nodup (by decide)

/-- C7 counterexample: a successful fetch whose response carries base "EUR"
creates a snapshot whose `baseCurrency` is not the fixed base currency, and
an immediately following store read for the fixed base does not return the
upserted rate; moreover, even for a "USD"-based response, a pre-existing USD
snapshot for another currency makes the following read return a row that was
not among the upserted rates. -/
theorem fetchAndStore_fixed_base_counterexample :
    (fetchAndStoreExchangeRates (.ok { base := "EUR", rates := [("GBP", 2)], timestamp := 5 }) []
      = .ok ({ base := "EUR", rates := [("GBP", 2)], timestamp := 5000 },
             [{ baseCurrency := "EUR", currency := "GBP", rate := 2, lastUpdated := 5000 }]))
    ∧ ({ baseCurrency := "EUR", currency := "GBP", rate := 2,
         lastUpdated := 5000 } : ExchangeRate).baseCurrency ≠ baseCurrency
    ∧ getExchangeRatesFromDb
        [{ baseCurrency := "EUR", currency := "GBP", rate := 2, lastUpdated := 5000 }] = []
    ∧ (fetchAndStoreExchangeRates
         (.ok { base := "USD", rates := [("EUR", mkRat 93 100)], timestamp := 5 })
         [{ baseCurrency := "USD", currency := "JPY", rate := 150, lastUpdated := 0 }]
       = .ok ({ base := "USD", rates := [("EUR", mkRat 93 100)], timestamp := 5000 },
              [{ baseCurrency := "USD", currency := "JPY", rate := 150, lastUpdated := 0 },
               { baseCurrency := "USD", currency := "EUR", rate := mkRat 93 100,
                 lastUpdated := 5000 }]))
    ∧ ({ baseCurrency := "USD", currency := "JPY", rate := 150,
         lastUpdated := 0 } : ExchangeRate)
        ∈ getExchangeRatesFromDb
            [{ baseCurrency := "USD", currency := "JPY", rate := 150, lastUpdated := 0 },
             { baseCurrency := "USD", currency := "EUR", rate := mkRat 93 100,
               lastUpdated := 5000 }]
    ∧ lookupRate [("EUR", mkRat 93 100)] "JPY" = none :=
  ⟨by decide, by decide, by decide, by decide, by decide, by decide⟩

/-- C7 (amended): every snapshot created or updated by a successful
`fetchAndStoreExchangeRates` is either a pre-existing row left unchanged or
carries the provider response's base (not necessarily the fixed base
currency); when the response's base equals the fixed base currency, every
rate of the returned set is visible, with its stored value and timestamp, to
an immediately following store read for the fixed base. -/
theorem fetchAndStore_base_and_visibility (resp : ProviderResponse) (db : List ExchangeRate)
    (fmt : RatesFmt) (db' : List ExchangeRate)
    (h : fetchAndStoreExchangeRates (.ok resp) db = .ok (fmt, db')) :
    (∀ row ∈ db', row ∈ db ∨ row.baseCurrency = resp.base)
    ∧ (resp.base = baseCurrency →
        ∀ p ∈ fmt.rates, ∃ row ∈ getExchangeRatesFromDb db',
          row.baseCurrency = baseCurrency ∧ row.currency = p.1 ∧ row.rate = p.2
          ∧ row.lastUpdated = resp.timestamp * 1000) := by
  simp only [fetchAndStoreExchangeRates, Except.ok.injEq, Prod.mk.injEq] at h
  obtain ⟨hfmt, hdb⟩ := h
  subst hfmt
  subst hdb
  constructor
  · intro row hrow
    exact foldl_upsert_base hrow
  · intro hbase p hp
    replace hp : p ∈ filterSupportedRates resp.rates := hp
    obtain ⟨row, hrowmem, hb, hc, hr, ht⟩ :=
      foldl_upsert_visible (filterSupportedRates_keys_nodup resp.rates) db p hp
    exact ⟨row, mem_getExchangeRatesFromDb.mpr ⟨hrowmem, by rw [hb, hbase]⟩,
      by rw [hb, hbase], hc, hr, ht⟩

/-- Witness for the amended C7: a USD-based response storing one EUR rate
into an empty store makes that rate visible to the following read. -/
theorem fetchAndStore_base_and_visibility_witness :
    ∃ row ∈ getExchangeRatesFromDb
        [{ baseCurrency := "USD", currency := "EUR", rate := mkRat 93 100,
           lastUpdated := 5000 }],
      row.baseCurrency = baseCurrency ∧ row.currency = "EUR" ∧ row.rate = mkRat 93 100
      ∧ row.lastUpdated = 5000 :=
  (fetchAndStore_base_and_visibility
    { base := "USD", rates := [("EUR", mkRat 93 100)], timestamp := 5 } []
    { base := "USD", rates := [("EUR", mkRat 93 100)], timestamp := 5000 }
    [{ baseCurrency := "USD", currency := "EUR", rate := mkRat 93 100, lastUpdated := 5000 }]
    (by decide)).2 rfl ("EUR", mkRat 93 100) (by decide)

/-- C8: a successful provider response whose rate mapping filters down to
nothing is still a success: `getExchangeRates` does not raise an error for
any successful fetch, the returned `rates` object is empty when the cache is
also empty, and a currency missing from the result is detected only later,
at conversion time, as the rate-unavailable error. -/
theorem getExchangeRates_empty_fetch_success (now : ℤ) (db : List ExchangeRate)
    (resp : ProviderResponse) (txs : List Transaction) (u : ℕ) (a b : String) (x : ℚ)
    (hempty : filterSupportedRates resp.rates = []) :
    ((getExchangeRates now true db (.ok resp)).1 ≠ .error ())
    ∧ (getExchangeRatesFromDb db = [] →
        getExchangeRates now true db (.ok resp)
          = (.ok { base := resp.base, rates := [], timestamp := resp.timestamp * 1000 }, db))
    ∧ (getExchangeRatesFromDb db = [] → a ∈ supportedCurrencies → b ∈ supportedCurrencies →
        (convertCurrency now true db (.ok resp) txs u a b x).result
          = .error .rateUnavailable) := by
  have hok : ∀ _ : getExchangeRatesFromDb db = [],
      getExchangeRates now true db (.ok resp)
        = (.ok { base := resp.base, rates := [], timestamp := resp.timestamp * 1000 }, db) := by
    intro hnil
    have hfetch := @getExchangeRates_empty_cache_fetch now db resp hnil
    rw [hempty] at hfetch
    simpa using hfetch
  refine ⟨?_, hok, ?_⟩
  · intro herr
    rcases getExchangeRates_error_iff.mp herr with h | ⟨-, hfe⟩
    · simp at h
    · simp at hfe
  · intro hnil ha hb
    have hru := @convertCurrency_rateUnavailable now true db (.ok resp) txs u a b x
      { base := resp.base, rates := [], timestamp := resp.timestamp * 1000 } db
      ⟨contains_iff_mem.mpr ha, contains_iff_mem.mpr hb⟩ (hok hnil)
      (by rintro ⟨h1, -⟩; simp [lookupRate, jsTruthy] at h1)
    rw [hru]

/-- Witness for C8: an empty response against an empty store yields an empty
rate set without error, and converting USD to EUR afterwards fails only with
the rate-unavailable error. -/
theorem getExchangeRates_empty_fetch_success_witness :
    getExchangeRates 0 true [] (.ok sampleEmptyResp)
      = (.ok { base := "USD", rates := [], timestamp := 5000 }, [])
    ∧ (convertCurrency 0 true [] (.ok sampleEmptyResp) [] 1 "USD" "EUR" 100).result
        = .error .rateUnavailable :=
  ⟨(getExchangeRates_empty_fetch_success 0 [] sampleEmptyResp [] 1 "USD" "EUR" 100
      (by decide)).2.1 rfl,
   (getExchangeRates_empty_fetch_success 0 [] sampleEmptyResp [] 1 "USD" "EUR" 100
      (by decide)).2.2 rfl (by decide) (by decide)⟩

/-- C9: the transaction listing for a user contains only rows whose
`userId` is that user, for every state of the transaction table — in
particular for any interleaving of conversions by different users. -/
theorem getUserTransactions_owner_only (txs : List Transaction) (u : ℕ) :
    ∀ t ∈ getUserTransactions txs u, t.userId = u := by
  intro t ht
  simpa using (List.mem_filter.mp ht).2

/-- Witness for C9: user 1's listing over a mixed table yields a row owned
by user 1. -/
theorem getUserTransactions_owner_only_witness : sampleTxMine.userId = 1 :=
  getUserTransactions_owner_only [sampleTxMine, sampleTxOther] 1 sampleTxMine (by decide)

theorem lookupRate_pos {m : List (String × ℚ)} {c : String} {r : ℚ}
    (h : lookupRate m c = some r) (hpos : ∀ p ∈ m, 0 < p.2) : 0 < r := by
  unfold lookupRate at h
  cases hf : m.find? (fun p => p.1 == c) with
  | none => rw [hf] at h; simp at h
  | some q =>
    rw [hf] at h
    obtain rfl : q.2 = r := by simpa using h
    exact hpos q (List.mem_of_find?_eq_some hf)

/-- C10: the divisions of `convertCurrency` happen only behind the
truthiness guard: every success takes both rates from the obtained mapping
with nonzero values (so no division by zero is ever performed), and under
the invariant that every rate in the mapping is positive, the
rate-unavailable error can only arise from a currency absent from the
mapping. -/
theorem convertCurrency_division_guard (now : ℤ) (storeReadOk : Bool) (db : List ExchangeRate)
    (fetch : Except Unit ProviderResponse) (txs : List Transaction) (u : ℕ)
    (fc tc : String) (x : ℚ) :
    (∀ res, (convertCurrency now storeReadOk db fetch txs u fc tc x).result = .ok res →
      ∃ fmt db' fr tr, getExchangeRates now storeReadOk db fetch = (.ok fmt, db')
        ∧ lookupRate fmt.rates fc = some fr ∧ fr ≠ 0
        ∧ lookupRate fmt.rates tc = some tr ∧ tr ≠ 0
        ∧ res.convertedAmount = x / fr * tr ∧ res.exchangeRate = tr / fr)
    ∧ (∀ fmt db', getExchangeRates now storeReadOk db fetch = (.ok fmt, db') →
        (∀ p ∈ fmt.rates, 0 < p.2) →
        (convertCurrency now storeReadOk db fetch txs u fc tc x).result
          = .error .rateUnavailable →
        lookupRate fmt.rates fc = none ∨ lookupRate fmt.rates tc = none) := by
  constructor
  · intro res h
    rcases convertCurrency_result_ok_iff.mp h with
      ⟨hsup, fmt, db', fr, tr, hE, hfr, hfr0, htr, htr0, hres⟩
    subst hres
    exact ⟨fmt, db', fr, tr, hE, hfr, hfr0, htr, htr0, rfl, rfl⟩
  · intro fmt db' hE hpos herr
    by_contra hnone
    push_neg at hnone
    obtain ⟨fr, hfr⟩ := Option.ne_none_iff_exists'.mp hnone.1
    obtain ⟨tr, htr⟩ := Option.ne_none_iff_exists'.mp hnone.2
    have hfr0 : fr ≠ 0 := ne_of_gt (lookupRate_pos hfr hpos)
    have htr0 : tr ≠ 0 := ne_of_gt (lookupRate_pos htr hpos)
    by_cases hsup : supportedCurrencies.contains fc = true
        ∧ supportedCurrencies.contains tc = true
    · have hok := (@convertCurrency_result_ok_iff now storeReadOk db fetch txs u fc tc x
        { id := txs.length + 1, fromCurrency := fc, toCurrency := tc, amount := x,
          convertedAmount := x / fr * tr, exchangeRate := tr / fr, timestamp := now }).mpr
        ⟨hsup, fmt, db', fr, tr, hE, hfr, hfr0, htr, htr0, rfl⟩
      rw [herr] at hok
      simp at hok
    · have hun := @convertCurrency_unsupported now storeReadOk db fetch txs u fc tc x
        (fun hmem => hsup ⟨contains_iff_mem.mpr hmem.1, contains_iff_mem.mpr hmem.2⟩)
      rw [hun] at herr
      simp at herr

/-- Witness for C10: the successful sample conversion exhibits both nonzero
rates from the obtained mapping. -/
theorem convertCurrency_division_guard_witness :
    ∃ fmt db' fr tr, getExchangeRates 0 true sampleDb (.error ()) = (.ok fmt, db')
      ∧ lookupRate fmt.rates "USD" = some fr ∧ fr ≠ 0
      ∧ lookupRate fmt.rates "EUR" = some tr ∧ tr ≠ 0
      ∧ sampleConvRes.convertedAmount = 100 / fr * tr
      ∧ sampleConvRes.exchangeRate = tr / fr :=
  (convertCurrency_division_guard 0 true sampleDb (.error ()) [] 1 "USD" "EUR" 100).1
    sampleConvRes sampleConversion_ok

end CurrencyConverter
